import Mathlib

/-!
Verification of the obsidian-cowriter ingestion pipeline.

The repository consists of `ingest.py` (directory scan, markdown loading,
recursive-character chunk splitting, embedding, vector-store persistence)
and `test_embeddings.py` (a standalone embedding smoke test).  This file
gives a shallow embedding of those programs: pure computations become Lean
functions, and the effectful pipeline becomes a function producing an
explicit trace of effects together with an outcome (normal return or a
raised exception).
-/

namespace ObsidianCowriter

/-- A loaded document: text plus source metadata, as produced by the loader
in `ingest.py` (each chunk inherits the parent document's metadata). -/
structure Document where
  text : List Char
  source : String
deriving DecidableEq

/-- Modelled from the spec: the repository invokes langchain's
`RecursiveCharacterTextSplitter` (configured in `src/ingest.py` lines
107-112 with `chunk_size=1000`, `chunk_overlap=200`, `length_function=len`),
whose implementation is not part of this repository.  Following the spec's
contract (section 4.3): chunks respect the `chunk_size` ceiling, a document
no longer than `chunk_size` yields exactly one chunk equal to the whole
text, and otherwise consecutive chunks of the same document share
`chunk_overlap` trailing/leading characters; the preference for larger
semantic separators is abstracted to the character-level fallback cut.
`splitTextAux` is fuel-indexed so the definition is structural; the fuel is
the text length, which the recursion (consuming at least
`chunkSize - overlap ≥ 1` characters per step) never exhausts. -/
def splitTextAux (chunkSize overlap : Nat) : Nat → List Char → List (List Char)
  | 0, s => [s]
  | fuel + 1, s =>
    if s.length ≤ chunkSize then [s]
    else if chunkSize ≤ overlap then [s]
    else s.take chunkSize :: splitTextAux chunkSize overlap fuel (s.drop (chunkSize - overlap))

/-- Modelled from the spec: split one document text into chunks (see
`splitTextAux`). -/
def splitText (chunkSize overlap : Nat) (s : List Char) : List (List Char) :=
  splitTextAux chunkSize overlap s.length s

/-- Modelled from the spec: `textSplitter.split_documents` — split every
document and concatenate the chunk sequences into one flat batch, each
chunk inheriting its parent document's metadata. -/
def splitDocuments (chunkSize overlap : Nat) (docs : List Document) : List Document :=
  (docs.map (fun d => (splitText chunkSize overlap d.text).map
    (fun t => Document.mk t d.source))).flatten

/-- Rejoin chunks, removing the overlap: the first chunk whole, every later
chunk with its first `overlap` characters (those repeated from its
predecessor) removed. -/
def joinOverlap (overlap : Nat) : List (List Char) → List Char
  | [] => []
  | c :: rest => c ++ (rest.map (List.drop overlap)).flatten

theorem splitTextAux_of_le (chunkSize overlap fuel : Nat) (s : List Char)
    (h : s.length ≤ chunkSize) : splitTextAux chunkSize overlap fuel s = [s] := by
  cases fuel <;> simp [splitTextAux, h]

theorem splitText_of_le (chunkSize overlap : Nat) (s : List Char)
    (h : s.length ≤ chunkSize) : splitText chunkSize overlap s = [s] :=
  splitTextAux_of_le chunkSize overlap s.length s h

/-- Claim C1: a document whose text length is at most `chunk_size` splits
into exactly one chunk whose text equals the full document text (and at the
batch level the singleton batch is returned unchanged). -/
theorem short_document_single_chunk (chunkSize overlap : Nat) (d : Document)
    (h : d.text.length ≤ chunkSize) :
    splitText chunkSize overlap d.text = [d.text] ∧
    splitDocuments chunkSize overlap [d] = [d] := by
  refine ⟨splitText_of_le chunkSize overlap d.text h, ?_⟩
  simp [splitDocuments, splitText_of_le chunkSize overlap d.text h]

/-- Witness for C1 at a concrete two-character markdown document. -/
theorem short_document_single_chunk_witness :
    (Document.mk ['h', 'i'] "a.md").text.length ≤ 1000 ∧
    splitDocuments 1000 200 [Document.mk ['h', 'i'] "a.md"] = [Document.mk ['h', 'i'] "a.md"] :=
  ⟨by decide, (short_document_single_chunk 1000 200 (Document.mk ['h', 'i'] "a.md") (by decide)).2⟩

theorem splitTextAux_length_le (chunkSize overlap : Nat) (hO : overlap < chunkSize) :
    ∀ (fuel : Nat) (s : List Char), s.length ≤ fuel →
      ∀ c ∈ splitTextAux chunkSize overlap fuel s, c.length ≤ chunkSize := by
  intro fuel
  induction fuel with
  | zero =>
    intro s hs c hc
    simp only [splitTextAux, List.mem_singleton] at hc
    subst hc
    omega
  | succ fuel ih =>
    intro s hs c hc
    by_cases h1 : s.length ≤ chunkSize
    · simp only [splitTextAux, if_pos h1, List.mem_singleton] at hc
      subst hc
      exact h1
    · have h2 : ¬ chunkSize ≤ overlap := by omega
      simp only [splitTextAux, if_neg h1, if_neg h2, List.mem_cons] at hc
      rcases hc with hc | hc
      · subst hc
        simp only [List.length_take]
        omega
      · exact ih (s.drop (chunkSize - overlap))
          (by simp only [List.length_drop]; omega) c hc

theorem splitText_length_le (chunkSize overlap : Nat) (hO : overlap < chunkSize)
    (s : List Char) : ∀ c ∈ splitText chunkSize overlap s, c.length ≤ chunkSize :=
  splitTextAux_length_le chunkSize overlap hO s.length s (Nat.le_refl _)

theorem splitTextAux_head (chunkSize overlap : Nat) (hO : overlap < chunkSize) :
    ∀ (fuel : Nat) (s : List Char), s.length ≤ fuel →
      (splitTextAux chunkSize overlap fuel s).head? = some (s.take chunkSize) := by
  intro fuel s hs
  cases fuel with
  | zero =>
    have hnil : s = [] := List.eq_nil_of_length_eq_zero (by omega)
    subst hnil
    simp [splitTextAux]
  | succ fuel =>
    by_cases h1 : s.length ≤ chunkSize
    · simp [splitTextAux, if_pos h1, List.take_of_length_le h1]
    · have h2 : ¬ chunkSize ≤ overlap := by omega
      simp [splitTextAux, if_neg h1, if_neg h2]

theorem splitTextAux_chain (chunkSize overlap : Nat) (hO : overlap < chunkSize) :
    ∀ (fuel : Nat) (s : List Char), s.length ≤ fuel →
      List.Chain' (fun a b => b.take overlap = a.drop (a.length - overlap))
        (splitTextAux chunkSize overlap fuel s) := by
  intro fuel
  induction fuel with
  | zero =>
    intro s hs
    exact List.chain'_singleton s
  | succ fuel ih =>
    intro s hs
    by_cases h1 : s.length ≤ chunkSize
    · rw [splitTextAux_of_le chunkSize overlap _ s h1]
      exact List.chain'_singleton s
    · have h2 : ¬ chunkSize ≤ overlap := by omega
      have hdlen : (s.drop (chunkSize - overlap)).length ≤ fuel := by
        simp only [List.length_drop]
        omega
      simp only [splitTextAux, if_neg h1, if_neg h2]
      rw [List.chain'_cons']
      refine ⟨?_, ih (s.drop (chunkSize - overlap)) hdlen⟩
      intro y hy
      rw [splitTextAux_head chunkSize overlap hO fuel _ hdlen, Option.mem_some_iff] at hy
      subst hy
      have hlen : (s.take chunkSize).length = chunkSize := by
        simp only [List.length_take]
        omega
      rw [List.take_take, hlen, List.drop_take]
      have hmin : min overlap chunkSize = overlap := by omega
      have hsub : chunkSize - (chunkSize - overlap) = overlap := by omega
      rw [hmin, hsub]

theorem splitTextAux_flatten_drop (chunkSize overlap : Nat) (hO : overlap < chunkSize) :
    ∀ (fuel : Nat) (s : List Char), s.length ≤ fuel →
      ((splitTextAux chunkSize overlap fuel s).map (List.drop overlap)).flatten =
        s.drop overlap := by
  intro fuel
  induction fuel with
  | zero =>
    intro s hs
    have hnil : s = [] := List.eq_nil_of_length_eq_zero (by omega)
    subst hnil
    simp [splitTextAux]
  | succ fuel ih =>
    intro s hs
    by_cases h1 : s.length ≤ chunkSize
    · rw [splitTextAux_of_le chunkSize overlap _ s h1]
      simp
    · have h2 : ¬ chunkSize ≤ overlap := by omega
      have hdlen : (s.drop (chunkSize - overlap)).length ≤ fuel := by
        simp only [List.length_drop]
        omega
      simp only [splitTextAux, if_neg h1, if_neg h2, List.map_cons, List.flatten_cons]
      rw [ih (s.drop (chunkSize - overlap)) hdlen]
      rw [List.drop_take, List.drop_drop]
      have h3 : chunkSize - overlap + overlap = chunkSize := by omega
      have h4 : s.drop chunkSize = (s.drop overlap).drop (chunkSize - overlap) := by
        rw [List.drop_drop]
        congr 1
        omega
      rw [h3, h4, List.take_append_drop]

theorem joinOverlap_splitText (chunkSize overlap : Nat) (hO : overlap < chunkSize)
    (s : List Char) : joinOverlap overlap (splitText chunkSize overlap s) = s := by
  by_cases h1 : s.length ≤ chunkSize
  · rw [splitText_of_le chunkSize overlap s h1]
    simp [joinOverlap]
  · obtain ⟨k, hk⟩ : ∃ k, s.length = k + 1 := ⟨s.length - 1, by omega⟩
    have h2 : ¬ chunkSize ≤ overlap := by omega
    rw [splitText, hk]
    simp only [splitTextAux, if_neg h1, if_neg h2]
    rw [joinOverlap]
    rw [splitTextAux_flatten_drop chunkSize overlap hO k
      (s.drop (chunkSize - overlap)) (by simp only [List.length_drop]; omega)]
    rw [List.drop_drop]
    have h3 : chunkSize - overlap + overlap = chunkSize := by omega
    rw [h3, List.take_append_drop]

/-- The concrete end-to-end splitter scenario of the spec: a 2500-character
document at `chunk_size=1000`, `chunk_overlap=200` splits into chunks of
1000, 1000 and 900 characters (steps of `1000 - 200 = 800`). -/
theorem splitText_replicate_2500 : splitText 1000 200 (List.replicate 2500 'a') =
    [List.replicate 1000 'a', List.replicate 1000 'a', List.replicate 900 'a'] := by
  have u2 : ∀ (fuel n : Nat), 1000 < n →
      splitTextAux 1000 200 (fuel + 1) (List.replicate n 'a') =
        List.replicate 1000 'a' :: splitTextAux 1000 200 fuel (List.replicate (n - 800) 'a') := by
    intro fuel n h
    rw [splitTextAux]
    rw [if_neg (by rw [List.length_replicate]; omega), if_neg (by omega)]
    rw [List.take_replicate, List.drop_replicate]
    congr 1
    · congr 1
      omega
  have e0 : splitText 1000 200 (List.replicate 2500 'a') =
      splitTextAux 1000 200 2500 (List.replicate 2500 'a') := by
    rw [splitText, List.length_replicate]
  rw [e0, show (2500 : Nat) = 2499 + 1 from rfl, u2 2499 2500 (by omega)]
  rw [show (2500 - 800 : Nat) = 1700 from rfl, show (2499 : Nat) = 2498 + 1 from rfl,
    u2 2498 1700 (by omega)]
  rw [show (1700 - 800 : Nat) = 900 from rfl,
    splitTextAux_of_le 1000 200 2498 (List.replicate 900 'a')
      (by rw [List.length_replicate]; omega)]

/-- Claim C2: every chunk produced by the splitter has length at most
`chunk_size` (given the configuration precondition `overlap < chunk_size`;
the pipeline uses 200 < 1000), and a 2500-character document with
`chunk_size=1000`, `chunk_overlap=200` splits into exactly 3 chunks, each
at most 1000 characters. -/
theorem chunk_size_ceiling :
    (∀ (chunkSize overlap : Nat) (s : List Char), overlap < chunkSize →
      ∀ c ∈ splitText chunkSize overlap s, c.length ≤ chunkSize) ∧
    (splitText 1000 200 (List.replicate 2500 'a')).length = 3 ∧
    (∀ c ∈ splitText 1000 200 (List.replicate 2500 'a'), c.length ≤ 1000) := by
  refine ⟨fun chunkSize overlap s hO => splitText_length_le chunkSize overlap hO s, ?_, ?_⟩
  · rw [splitText_replicate_2500]
    rfl
  · intro c hc
    rw [splitText_replicate_2500] at hc
    simp only [List.mem_cons, List.not_mem_nil, or_false] at hc
    rcases hc with hc | hc | hc <;> subst hc <;> rw [List.length_replicate] <;> omega

/-- Witness for C2 at the pipeline configuration on a one-character text. -/
theorem chunk_size_ceiling_witness :
    200 < 1000 ∧ ∀ c ∈ splitText 1000 200 ['a'], c.length ≤ 1000 :=
  ⟨by decide, fun c hc => chunk_size_ceiling.1 1000 200 ['a'] (by decide) c hc⟩

/-- Claim C3: for a document longer than `chunk_size` split with
`overlap < chunk_size`, each pair of consecutive chunks shares the overlap
(the first `overlap` characters of the later chunk are the last `overlap`
characters of the earlier one), and rejoining the chunks with the overlaps
removed reconstructs the original document text exactly. -/
theorem consecutive_overlap_and_cover (chunkSize overlap : Nat) (s : List Char)
    (h1 : overlap < chunkSize) (h2 : chunkSize < s.length) :
    List.Chain' (fun a b => b.take overlap = a.drop (a.length - overlap))
      (splitText chunkSize overlap s) ∧
    joinOverlap overlap (splitText chunkSize overlap s) = s :=
  ⟨splitTextAux_chain chunkSize overlap h1 s.length s (Nat.le_refl _),
   joinOverlap_splitText chunkSize overlap h1 s⟩

/-- Witness for C3: a five-character text with `chunk_size=3`, `overlap=1`
splits into `[abc, cde]`, the chunks share the character `c`, and rejoining
gives back `abcde`. -/
theorem consecutive_overlap_and_cover_witness :
    1 < 3 ∧ 3 < (['a', 'b', 'c', 'd', 'e'] : List Char).length ∧
    (List.Chain' (fun a b => b.take 1 = a.drop (a.length - 1))
        (splitText 3 1 ['a', 'b', 'c', 'd', 'e']) ∧
      joinOverlap 1 (splitText 3 1 ['a', 'b', 'c', 'd', 'e']) = ['a', 'b', 'c', 'd', 'e']) :=
  ⟨by decide, by decide,
   consecutive_overlap_and_cover 3 1 ['a', 'b', 'c', 'd', 'e'] (by decide) (by decide)⟩

/-- One regular file found by `os.walk`: the directory it lives in and its
bare file name (`src/ingest.py` line 46-47). -/
structure FSFile where
  dirpath : List Char
  filename : List Char
deriving DecidableEq

/-- `os.path.join(dirpath, filename)` for the paths built by
`printDirectory` (`src/ingest.py` line 49). -/
def fullPath (f : FSFile) : List Char := f.dirpath ++ '/' :: f.filename

/-- `filename.endswith(".md")` (`src/ingest.py` line 50). -/
def isMdName (name : List Char) : Bool := List.isSuffixOf ['.', 'm', 'd'] name

/-- The accumulation loop of `printDirectory` (`src/ingest.py` lines 42-55)
over the walk listing, in walk order: counts every file, counts `.md`
files, and collects either only the `.md` paths (when `printOnlyMd`) or
all paths.  Returns `(totalFiles, mdFiles, files)`. -/
def scanWalk (printOnlyMd : Bool) : List FSFile → Nat × Nat × List (List Char)
  | [] => (0, 0, [])
  | f :: rest =>
    let r := scanWalk printOnlyMd rest
    (r.1 + 1,
     (if isMdName f.filename then r.2.1 + 1 else r.2.1),
     ((if isMdName f.filename && printOnlyMd then [fullPath f] else []) ++
      (if !printOnlyMd then [fullPath f] else []) ++ r.2.2))

/-- The result of one `printDirectory` call: the counters and file list it
computes, together with the lines it writes to standard output. -/
structure ScanResult where
  totalFiles : Nat
  mdFiles : Nat
  files : List (List Char)
  lines : List String
deriving DecidableEq

/-- `printDirectory` (`src/ingest.py` lines 29-64): scan the walk listing
of `path` and write the header, the per-file listing and the summary to
standard output. -/
def printDirectory (path : String) (walk : List FSFile) (printOnlyMd : Bool) : ScanResult :=
  let r := scanWalk printOnlyMd walk
  { totalFiles := r.1
    mdFiles := r.2.1
    files := r.2.2
    lines := ["--- Printing Directory ---",
              "\tSearching directory: " ++ path,
              "Mode: " ++ (if printOnlyMd then "Only *.md Files" else "All Files")]
      ++ r.2.2.map (fun f => "\t  -> Found: " ++ String.mk f)
      ++ ["Summary:",
          "\tTotal Markdown Files found: " ++ toString r.2.1,
          "\tTotal Overall Files found " ++ toString r.1,
          "--- Finished Printing Directory ---"] }

theorem scanWalk_spec (printOnlyMd : Bool) (walk : List FSFile) :
    scanWalk printOnlyMd walk =
      (walk.length,
       (walk.filter (fun f => isMdName f.filename)).length,
       ((if printOnlyMd then walk.filter (fun f => isMdName f.filename) else walk).map
          fullPath)) := by
  induction walk with
  | nil => cases printOnlyMd <;> simp [scanWalk]
  | cons f rest ih =>
    cases hf : isMdName f.filename <;> cases printOnlyMd <;>
      simp [scanWalk, ih, hf, List.filter_cons]

/-- Claim C4: for any root path, walk listing and markdown-only flag, the
Directory Scanner computes the total file count, the count of `.md` files,
and — depending on the flag — either the full path list or only the
markdown subset, and its reported summary lines carry the two counts. -/
theorem directory_scanner_contract (path : String) (walk : List FSFile) (flag : Bool) :
    (printDirectory path walk flag).totalFiles = walk.length ∧
    (printDirectory path walk flag).mdFiles =
      (walk.filter (fun f => isMdName f.filename)).length ∧
    (printDirectory path walk flag).files =
      (if flag then walk.filter (fun f => isMdName f.filename) else walk).map fullPath ∧
    ("\tTotal Markdown Files found: " ++
        toString (walk.filter (fun f => isMdName f.filename)).length) ∈
      (printDirectory path walk flag).lines ∧
    ("\tTotal Overall Files found " ++ toString walk.length) ∈
      (printDirectory path walk flag).lines := by
  refine ⟨?_, ?_, ?_, ?_, ?_⟩ <;>
    simp [printDirectory, scanWalk_spec, List.mem_append]

/-- Claim C5: for a root holding exactly `a.md` and `b.txt`, the scanner
reports `totalFiles = 2`, `mdFiles = 1`, and with the markdown-only flag
its per-file listing holds only the markdown file's path. -/
theorem directory_scanner_two_files :
    (printDirectory "root"
        [FSFile.mk ['r', 'o', 'o', 't'] ['a', '.', 'm', 'd'],
         FSFile.mk ['r', 'o', 'o', 't'] ['b', '.', 't', 'x', 't']] true).totalFiles = 2 ∧
    (printDirectory "root"
        [FSFile.mk ['r', 'o', 'o', 't'] ['a', '.', 'm', 'd'],
         FSFile.mk ['r', 'o', 'o', 't'] ['b', '.', 't', 'x', 't']] true).mdFiles = 1 ∧
    (printDirectory "root"
        [FSFile.mk ['r', 'o', 'o', 't'] ['a', '.', 'm', 'd'],
         FSFile.mk ['r', 'o', 'o', 't'] ['b', '.', 't', 'x', 't']] true).files =
      [['r', 'o', 'o', 't', '/', 'a', '.', 'm', 'd']] := by
  refine ⟨?_, ?_, ?_⟩ <;> decide

/-- The three required configuration values of `src/ingest.py` lines 16-18,
once validation has accepted them. -/
structure Config where
  vaultPath : String
  chromaPath : String
  embeddingModel : String
deriving DecidableEq

/-- Python truthiness test `not X` for an `os.getenv` result: true exactly
when the variable is absent (`None`) or the empty string. -/
def falsy : Option String → Bool
  | none => true
  | some s => s == ""

def vaultPathErr : String :=
  "Error. OBSIDIAN_VAULT_PATH variable expected in .env file. Not found."

def chromaPathErr : String :=
  "Error. CHROMA_DB_PATH variable expected in .env file. Not found."

def embeddingModelErr : String :=
  "Error. OLLAMA_EMBEDDING_MODEL variable expected in .env file. Not found."

/-- The module-level configuration validation of `src/ingest.py` lines
16-26: read the three environment variables and raise a `ValueError` for
the first falsy one, in source order. -/
def loadConfig (vaultVar chromaVar modelVar : Option String) : Except String Config :=
  if falsy vaultVar then Except.error vaultPathErr
  else if falsy chromaVar then Except.error chromaPathErr
  else if falsy modelVar then Except.error embeddingModelErr
  else Except.ok (Config.mk (vaultVar.getD "") (chromaVar.getD "") (modelVar.getD ""))

/-- One observable step of the ingestion pipeline: a line printed to the
reporting sink, or a call across one of the external boundaries
(filesystem walk, document loading, chunk splitting, embedding
initialization, vector-store persistence). -/
inductive Effect where
  | printMsg (msg : String)
  | walkDir (path : String)
  | loadDocuments (path : String) (glob : String)
  | splitChunks (numDocs : Nat)
  | initEmbeddings (model : String)
  | persistStore (path : String) (numRecords : Nat)
deriving DecidableEq

/-- How a Python function call ends: a normal return or a propagated
exception. -/
inductive Outcome where
  | normalReturn
  | raised (msg : String)
deriving DecidableEq

def noDocsMsg : String := "Failed to load documents, no markdown files in vault"

def vaultInvalidMsg (p : String) : String :=
  "Error: Vault path is invalid. Loaded path: " ++ p

/-- `main` of `src/ingest.py` (lines 69-146) as a trace function.  The
collaborator results stand in for the external boundaries: `walk` is what
`os.walk` yields, `loadRes` what `loader.load()` returns or raises,
`embedInitRes` and `storeRes` whether `OllamaEmbeddings(...)` and
`Chroma.from_documents(...)` succeed or raise.  Timing calls are omitted;
prints that only show elapsed time are elided. -/
def mainRun (cfg : Config) (vaultExists : Bool) (walk : List FSFile)
    (loadRes : Except String (List Document))
    (embedInitRes : Except String Unit) (storeRes : Except String Unit) :
    List Effect × Outcome :=
  let envLines : List Effect :=
    [Effect.printMsg "=== Environment Data ===",
     Effect.printMsg ("\tVault path: " ++ cfg.vaultPath),
     Effect.printMsg ("\tChroma DB Path: " ++ cfg.chromaPath),
     Effect.printMsg ("\tEmbedding Model ID: " ++ cfg.embeddingModel),
     Effect.printMsg "=== End Environment Data ==="]
  if !vaultExists then
    (envLines ++ [Effect.printMsg (vaultInvalidMsg cfg.vaultPath)], Outcome.normalReturn)
  else
    let pre := envLines ++
      [Effect.printMsg
        ("Validated vault path " ++ cfg.vaultPath ++ ", proceeding to load all md files"),
       Effect.walkDir cfg.vaultPath] ++
      (printDirectory cfg.vaultPath walk true).lines.map Effect.printMsg ++
      [Effect.loadDocuments cfg.vaultPath "**/*.md"]
    match loadRes with
    | Except.error e => (pre, Outcome.raised e)
    | Except.ok docs =>
      if docs.isEmpty then
        (pre ++ [Effect.printMsg noDocsMsg], Outcome.normalReturn)
      else
        let chunks := splitDocuments 1000 200 docs
        let pre2 := pre ++
          [Effect.printMsg ("Succesfully loaded " ++ toString docs.length ++ " documents"),
           Effect.printMsg "Splitting documents into chunks",
           Effect.splitChunks docs.length,
           Effect.printMsg
             ("Split " ++ toString docs.length ++ " documents into " ++
               toString chunks.length ++ " chunks"),
           Effect.printMsg ("Initializing embedding model: " ++ cfg.embeddingModel),
           Effect.initEmbeddings cfg.embeddingModel]
        match embedInitRes with
        | Except.error e => (pre2, Outcome.raised e)
        | Except.ok _ =>
          let pre3 := pre2 ++
            [Effect.printMsg ("Initialized embedding model: " ++ cfg.embeddingModel),
             Effect.printMsg ("Creating and persisting vector store at: " ++ cfg.chromaPath),
             Effect.persistStore cfg.chromaPath chunks.length]
          match storeRes with
          | Except.error e => (pre3, Outcome.raised e)
          | Except.ok _ =>
            (pre3 ++
              [Effect.printMsg "Ingestion completed",
               Effect.printMsg
                 ("Vector store generated at " ++ cfg.chromaPath ++
                   ". You can now query your vault.")],
             Outcome.normalReturn)

/-- The whole `src/ingest.py` process: module-level configuration
validation first (raising before anything else runs), then `main`. -/
def programRun (vaultVar chromaVar modelVar : Option String) (vaultExists : Bool)
    (walk : List FSFile) (loadRes : Except String (List Document))
    (embedInitRes : Except String Unit) (storeRes : Except String Unit) :
    List Effect × Outcome :=
  match loadConfig vaultVar chromaVar modelVar with
  | Except.error e => ([], Outcome.raised e)
  | Except.ok cfg => mainRun cfg vaultExists walk loadRes embedInitRes storeRes

/-- Claim C6: when the loader returns zero documents, `main` prints the
failure message and returns normally, with no embedding initialization, no
splitting and no vector-store call in its trace. -/
theorem empty_load_halts (cfg : Config) (walk : List FSFile)
    (er sr : Except String Unit) :
    (mainRun cfg true walk (Except.ok []) er sr).2 = Outcome.normalReturn ∧
    Effect.printMsg noDocsMsg ∈ (mainRun cfg true walk (Except.ok []) er sr).1 ∧
    (∀ n, Effect.splitChunks n ∉ (mainRun cfg true walk (Except.ok []) er sr).1) ∧
    (∀ m, Effect.initEmbeddings m ∉ (mainRun cfg true walk (Except.ok []) er sr).1) ∧
    (∀ p n, Effect.persistStore p n ∉ (mainRun cfg true walk (Except.ok []) er sr).1) := by
  simp [mainRun, List.mem_append, List.mem_map]

/-- Claim C7: when the vault path does not exist, `main` prints the
error message and returns normally; beyond the existence check its trace
holds only the environment prints and that message — no walk, no load, no
split, no embedding, no store call. -/
theorem invalid_vault_path_halts (cfg : Config) (walk : List FSFile)
    (lr : Except String (List Document)) (er sr : Except String Unit) :
    mainRun cfg false walk lr er sr =
      ([Effect.printMsg "=== Environment Data ===",
        Effect.printMsg ("\tVault path: " ++ cfg.vaultPath),
        Effect.printMsg ("\tChroma DB Path: " ++ cfg.chromaPath),
        Effect.printMsg ("\tEmbedding Model ID: " ++ cfg.embeddingModel),
        Effect.printMsg "=== End Environment Data ===",
        Effect.printMsg (vaultInvalidMsg cfg.vaultPath)], Outcome.normalReturn) ∧
    (∀ p, Effect.walkDir p ∉ (mainRun cfg false walk lr er sr).1) ∧
    (∀ p g, Effect.loadDocuments p g ∉ (mainRun cfg false walk lr er sr).1) ∧
    (∀ n, Effect.splitChunks n ∉ (mainRun cfg false walk lr er sr).1) ∧
    (∀ m, Effect.initEmbeddings m ∉ (mainRun cfg false walk lr er sr).1) ∧
    (∀ p n, Effect.persistStore p n ∉ (mainRun cfg false walk lr er sr).1) := by
  simp [mainRun]

theorem falsy_none : falsy none = true := rfl

theorem falsy_empty : falsy (some "") = true := rfl

theorem loadConfig_error_of_absent (v c m : Option String)
    (h : v = none ∨ c = none ∨ m = none) :
    ∃ e, loadConfig v c m = Except.error e := by
  rcases h with h | h | h
  · subst h
    exact ⟨vaultPathErr, rfl⟩
  · subst h
    by_cases hv : falsy v
    · exact ⟨vaultPathErr, by simp [loadConfig, hv]⟩
    · exact ⟨chromaPathErr, by simp [loadConfig, hv, falsy_none, falsy_empty]⟩
  · subst h
    by_cases hv : falsy v
    · exact ⟨vaultPathErr, by simp [loadConfig, hv]⟩
    · by_cases hc : falsy c
      · exact ⟨chromaPathErr, by simp [loadConfig, hv, hc]⟩
      · exact ⟨embeddingModelErr, by simp [loadConfig, hv, hc, falsy_none, falsy_empty]⟩

/-- Claim C8: if any of the three required settings is absent, the program
raises at startup with an empty effect trace — no scan, load, split,
embed or store operation has happened. -/
theorem missing_config_fails_fast (v c m : Option String) (ve : Bool)
    (walk : List FSFile) (lr : Except String (List Document))
    (er sr : Except String Unit) (h : v = none ∨ c = none ∨ m = none) :
    (programRun v c m ve walk lr er sr).1 = [] ∧
    ∃ e, (programRun v c m ve walk lr er sr).2 = Outcome.raised e := by
  obtain ⟨e, he⟩ := loadConfig_error_of_absent v c m h
  simp [programRun, he]

/-- Witness for C8: with the vault variable absent, nothing runs and a
`ValueError` is raised. -/
theorem missing_config_fails_fast_witness :
    ((none : Option String) = none ∨ (some "db" : Option String) = none ∨
      (some "qwen3:30b" : Option String) = none) ∧
    ((programRun none (some "db") (some "qwen3:30b") true []
        (Except.ok []) (Except.ok ()) (Except.ok ())).1 = [] ∧
      ∃ e, (programRun none (some "db") (some "qwen3:30b") true []
        (Except.ok []) (Except.ok ()) (Except.ok ())).2 = Outcome.raised e) :=
  ⟨Or.inl rfl,
   missing_config_fails_fast none (some "db") (some "qwen3:30b") true []
    (Except.ok []) (Except.ok ()) (Except.ok ()) (Or.inl rfl)⟩

/-- Claim C10: a required setting present but equal to the empty string is
treated exactly like an absent one — the whole program run is identical,
and validation raises the same `ValueError`, so the pipeline never runs
with an empty vault path, persistence path or model identifier. -/
theorem empty_string_config_like_absent (v c m : Option String) (ve : Bool)
    (walk : List FSFile) (lr : Except String (List Document))
    (er sr : Except String Unit) :
    programRun (some "") c m ve walk lr er sr = programRun none c m ve walk lr er sr ∧
    programRun v (some "") m ve walk lr er sr = programRun v none m ve walk lr er sr ∧
    programRun v c (some "") ve walk lr er sr = programRun v c none ve walk lr er sr ∧
    loadConfig (some "") c m = Except.error vaultPathErr ∧
    (∃ e, loadConfig v (some "") m = Except.error e) ∧
    (∃ e, loadConfig v c (some "") = Except.error e) := by
  refine ⟨rfl, ?_, ?_, rfl, ?_, ?_⟩
  · by_cases hv : falsy v <;> simp [programRun, loadConfig, hv, falsy_none, falsy_empty]
  · by_cases hv : falsy v
    · simp [programRun, loadConfig, hv]
    · by_cases hc : falsy c <;> simp [programRun, loadConfig, hv, hc, falsy_none, falsy_empty]
  · by_cases hv : falsy v
    · exact ⟨vaultPathErr, by simp [loadConfig, hv]⟩
    · exact ⟨chromaPathErr, by simp [loadConfig, hv, falsy_none, falsy_empty]⟩
  · by_cases hv : falsy v
    · exact ⟨vaultPathErr, by simp [loadConfig, hv]⟩
    · by_cases hc : falsy c
      · exact ⟨chromaPathErr, by simp [loadConfig, hv, hc]⟩
      · exact ⟨embeddingModelErr, by simp [loadConfig, hv, hc, falsy_none, falsy_empty]⟩

/-- One observable step of `src/test_embeddings.py`: a printed line, the
`OllamaEmbeddings` object construction, or the `embed_query` call. -/
inductive TEffect where
  | printMsg (msg : String)
  | initEmbObj (model : String)
  | embedQuery (text : String)
deriving DecidableEq

/-- The hardcoded model of `src/test_embeddings.py` line 6. -/
def testModel : String := "qwen3:30b"

/-- The fixed test sentence of `src/test_embeddings.py` line 21. -/
def testText : String := "The silver dragon sleeps on a hoard of gold."

/-- The `except` block of `src/test_embeddings.py` lines 46-52. -/
def failureLines (e : String) : List TEffect :=
  [TEffect.printMsg "--- TEST FAILED ---",
   TEffect.printMsg "An error occurred during the test. This likely means there is an issue with:",
   TEffect.printMsg "  - Your Ollama server (is it running?)",
   TEffect.printMsg "  - The connection between this script and the server.",
   TEffect.printMsg "  - The specified model name (does it exist in Ollama?).",
   TEffect.printMsg ("Error details: " ++ e)]

/-- `main` of `src/test_embeddings.py` (lines 8-52) as a trace function.
`initRes` is whether `OllamaEmbeddings(model=...)` raises, `embedRes` what
`embed_query` returns or raises.  The float values of the vector are
abstract here (only its length is reported), so the embedding vector is
modelled as a list of integers; the numpy sample/type prints are elided. -/
def testEmbeddingsMain (initRes : Except String Unit)
    (embedRes : Except String (List Int)) : List TEffect × Outcome :=
  let header :=
    [TEffect.printMsg ("--- Testing Ollama Embeddings with model: " ++ testModel ++ " ---"),
     TEffect.printMsg "1. Initializing the OllamaEmbeddings object...",
     TEffect.initEmbObj testModel]
  match initRes with
  | Except.error e => (header ++ failureLines e, Outcome.normalReturn)
  | Except.ok _ =>
    let mid := header ++
      [TEffect.printMsg "   - Success: Object initialized.",
       TEffect.printMsg ("2. Preparing to generate embedding for the text: " ++ testText),
       TEffect.printMsg "3. Calling the embed_query() method... (This may take a moment)",
       TEffect.embedQuery testText]
    match embedRes with
    | Except.error e => (mid ++ failureLines e, Outcome.normalReturn)
    | Except.ok v =>
      (mid ++
        [TEffect.printMsg "   - Success: Communication with Ollama was successful!",
         TEffect.printMsg "4. Analyzing the received embedding vector...",
         TEffect.printMsg ("   - Number of dimensions (vector length): " ++ toString v.length),
         TEffect.printMsg "--- Test Complete: The embeddings object is alive and working correctly! ---"],
       Outcome.normalReturn)

/-- Claim C9: every exception raised in the smoke test — during object
initialization or during the `embed_query` call — is caught: the failure
report (with the error details) is printed and the function returns
normally instead of propagating. -/
theorem smoke_test_catches_all (e : String) (embedRes : Except String (List Int)) :
    ((testEmbeddingsMain (Except.error e) embedRes).2 = Outcome.normalReturn ∧
      TEffect.printMsg "--- TEST FAILED ---" ∈ (testEmbeddingsMain (Except.error e) embedRes).1 ∧
      TEffect.printMsg ("Error details: " ++ e) ∈ (testEmbeddingsMain (Except.error e) embedRes).1) ∧
    ((testEmbeddingsMain (Except.ok ()) (Except.error e)).2 = Outcome.normalReturn ∧
      TEffect.printMsg "--- TEST FAILED ---" ∈ (testEmbeddingsMain (Except.ok ()) (Except.error e)).1 ∧
      TEffect.printMsg ("Error details: " ++ e) ∈ (testEmbeddingsMain (Except.ok ()) (Except.error e)).1) := by
  simp [testEmbeddingsMain, failureLines, List.mem_append]

end ObsidianCowriter
